import Mathlib

/-!
Verification of the Agentic Kernel orchestration core.

This file gives a shallow embedding, in Lean, of the agent-fleet
orchestration logic of the repository (the first revision of
src/hooks/useAgentSystem.ts together with src/services/geminiService.ts and
src/types.ts), and proves or refutes the specified properties of that logic.

External effects are modelled as explicit parameters: the outcome of the
external stepper call is a value of type StepOutcome, random identifiers and
timestamps are supplied through a TurnMeta record, and the per-worker session
handles are modelled as the list of worker ids that currently own a session.
-/

/-- Worker status enum, from src/types.ts (AgentStatus). -/
inductive AgentStatus where
  | IDLE
  | THINKING
  | WORKING
  | COMPLETED
  | ERROR
  | KILLED
deriving DecidableEq, Repr

/-- Log entry categories, from src/types.ts (AgentLog.type). -/
inductive LogType where
  | info
  | error
  | success
  | thought
  | artifact
deriving DecidableEq, Repr

/-- A log entry, from src/types.ts (AgentLog). -/
structure AgentLog where
  id : String
  timestamp : Nat
  type : LogType
  message : String
deriving DecidableEq, Repr

/-- A worker agent, from src/types.ts (WorkerAgent). -/
structure WorkerAgent where
  id : String
  name : String
  role : String
  status : AgentStatus
  progress : Nat
  currentTask : Option String
  logs : List AgentLog
  memoryUsage : Nat
  dependencies : List String
deriving DecidableEq, Repr

/-- A produced file artifact, from src/types.ts (AgentArtifact). -/
structure AgentArtifact where
  id : String
  path : String
  content : String
  language : String
  createdBy : String
  lastModified : Nat
deriving DecidableEq, Repr

/-- A task specification returned by the external planner, from the return
type of orchestratePlan in src/services/geminiService.ts. -/
structure TaskSpec where
  name : String
  role : String
  task : String
  dependencies : List String
deriving DecidableEq, Repr

/-- The mutable fleet store of useAgentSystem: the agents array, the global
log, the artifact registry, and the ids of agents owning a live Chat session
(modelling the agentSessions ref). -/
structure KernelState where
  agents : List WorkerAgent
  globalLogs : List AgentLog
  artifacts : List AgentArtifact
  sessions : List String
deriving DecidableEq, Repr

/-- Outcome of the underlying external call inside stepAgent: either a
response (whose text may be absent), or a thrown error. -/
inductive StepOutcome where
  | ok (text : Option String)
  | err (e : String)
deriving DecidableEq, Repr

/-- stepAgent from src/services/geminiService.ts: returns the response text,
"Thinking..." when the response carries no (or empty, hence falsy) text, and
the fixed error string when the underlying call throws. -/
def stepAgent : StepOutcome → String
  | StepOutcome.ok (some t) => if t = "" then "Thinking..." else t
  | StepOutcome.ok none => "Thinking..."
  | StepOutcome.err _ => "ERROR: Connection interrupted."

/-! ### Character-list string utilities

The response-analysis code of runScheduler works on JavaScript strings via
regular expressions; we model the strings as character lists and the two
regex operations (global file-block matching and first-occurrence
replacement) as recursive scanners with the same semantics. -/

/-- Bool test: pat is a leading segment of s. -/
def startsWith : List Char → List Char → Bool
  | [], _ => true
  | _ :: _, [] => false
  | p :: ps, c :: cs => p == c && startsWith ps cs

/-- Bool test: pat occurs as a contiguous substring of s
(JavaScript String.includes). -/
def containsSub (pat : List Char) : List Char → Bool
  | [] => startsWith pat []
  | c :: cs => startsWith pat (c :: cs) || containsSub pat cs

/-- JavaScript String.replace with a plain-string pattern and empty
replacement: removes the first occurrence of pat, if any. -/
def removeFirst (pat : List Char) : List Char → List Char
  | [] => []
  | c :: cs => if startsWith pat (c :: cs) then (c :: cs).drop pat.length
               else c :: removeFirst pat cs

/-- JavaScript String.trim on both ends, whitespace as Char.isWhitespace. -/
def trimC (s : List Char) : List Char :=
  ((s.dropWhile Char.isWhitespace).reverse.dropWhile Char.isWhitespace).reverse

/-- The opening delimiter of a file block in the wire format. -/
def OPEN_TAG : List Char := "<file path=\"".toList

/-- The closing delimiter of a file block. -/
def CLOSE_TAG : List Char := "</file>".toList

/-- The placeholder the display path substitutes for each file block. -/
def PLACEHOLDER : List Char := "[GENERATED FILE]".toList

/-- The completion token. -/
def TOKEN : List Char := "TASK_COMPLETE".toList

/-- The broadcast marker. -/
def BROADCAST_TAG : List Char := "BROADCAST:".toList

/-- Non-greedy body search: splits s into the shortest body followed by the
closing tag and the remaining text, as the lazy regex body [\s\S]*? does. -/
def findCloseTag : List Char → Option (List Char × List Char)
  | [] => none
  | c :: cs =>
    if startsWith CLOSE_TAG (c :: cs) then some ([], (c :: cs).drop CLOSE_TAG.length)
    else
      match findCloseTag cs with
      | some (b, r) => some (c :: b, r)
      | none => none

/-- Attempt to match one full file block at the head of s, per the regex
pattern of parseArtifacts: the literal opening tag, a nonempty path of
non-quote characters, the quote-and-bracket, a lazy body, the closing tag.
Returns (path, body, rest of the text). -/
def tryOpen (s : List Char) : Option (List Char × List Char × List Char) :=
  if startsWith OPEN_TAG s then
    let after := s.drop OPEN_TAG.length
    let path := after.takeWhile (fun c => c != '"')
    if path.isEmpty then none
    else
      match after.drop path.length with
      | '"' :: '>' :: rest2 =>
        match findCloseTag rest2 with
        | some (body, rest) => some (path, body, rest)
        | none => none
      | _ => none
  else none

/-- Fuelled global scan: collects every file-block match left to right and
simultaneously builds the text with each match replaced by the placeholder,
exactly as the two global-regex passes of runScheduler do. The fuel never
runs out when it starts at the length of the text, since every step consumes
at least one character. -/
def scanBlocksAux : Nat → List Char → List (List Char × List Char) × List Char
  | 0, s => ([], s)
  | Nat.succ fuel, s =>
    match s with
    | [] => ([], [])
    | c :: cs =>
      match tryOpen (c :: cs) with
      | some (path, body, rest) =>
        let pr := scanBlocksAux fuel rest
        ((path, body) :: pr.1, PLACEHOLDER ++ pr.2)
      | none =>
        let pr := scanBlocksAux fuel cs
        (pr.1, c :: pr.2)

/-- All file-block matches of a text with the placeholder-substituted text. -/
def scanBlocks (s : List Char) : List (List Char × List Char) × List Char :=
  scanBlocksAux s.length s

/-- The (path, body) pairs matched by the parseArtifacts regex. -/
def fileMatches (s : List Char) : List (List Char × List Char) := (scanBlocks s).1

/-- The text with every file block replaced by the placeholder, as in the
cleanResponse computation of runScheduler. -/
def stripFileBlocks (s : List Char) : List Char := (scanBlocks s).2

/-- path.split(".").pop() || "txt" from parseArtifacts: the segment after the
last dot (the whole path when no dot occurs), with the fallback tag when that
segment is empty. -/
def extOf (path : List Char) : List Char :=
  let seg := (path.reverse.takeWhile (fun c => c != '.')).reverse
  if seg.isEmpty then "txt".toList else seg

/-- parseArtifacts from src/hooks/useAgentSystem.ts: one artifact per regex
match, content trimmed, language from the path suffix; random ids and the
shared timestamp are supplied as parameters. -/
def parseArtifacts (text : List Char) (agentName : String) (freshId : Nat → String)
    (now : Nat) : List AgentArtifact :=
  (fileMatches text).enum.map (fun pair =>
    { id := freshId pair.1
      path := String.mk pair.2.1
      content := String.mk (trimC pair.2.2)
      language := String.mk (extOf pair.2.1)
      createdBy := agentName
      lastModified := now })

/-- The trimmed, file-stripped response, on which runScheduler checks the
completion token. -/
def cleanAfterFiles (raw : List Char) : List Char := trimC (stripFileBlocks raw)

/-- Completion detection of runScheduler: the token occurs in the trimmed,
file-stripped response. -/
def isCompleteResponse (raw : List Char) : Bool :=
  containsSub TOKEN (cleanAfterFiles raw)

/-- The display message of runScheduler: file blocks replaced by the
placeholder, the first occurrence of the completion token removed, trimmed. -/
def displayResponse (raw : List Char) : List Char :=
  trimC (removeFirst TOKEN (cleanAfterFiles raw))

/-- Broadcast detection of runScheduler: the display message starts with the
broadcast marker. -/
def isBroadcastResponse (raw : List Char) : Bool :=
  startsWith BROADCAST_TAG (displayResponse raw)

/-! ### Fleet store operations (useAgentSystem.ts, first revision) -/

/-- The most recent n entries of a list (JavaScript Array.slice(-n)). -/
def takeLast (n : Nat) (xs : List AgentLog) : List AgentLog :=
  xs.drop (xs.length - n)

/-- Update the agent whose id matches, leaving every other agent unchanged:
the setAgents(prev.map(...)) pattern used throughout the hook. -/
def mapById (tid : String) (f : WorkerAgent → WorkerAgent)
    (agents : List WorkerAgent) : List WorkerAgent :=
  agents.map (fun a => if a.id = tid then f a else a)

/-- addLog from useAgentSystem.ts: append the entry to the global log and
retain only the most recent 100 entries; when the owner is not MASTER, also
append it (unboundedly) to the log of that agent. -/
def addLog (st : KernelState) (message : String) (ty : LogType)
    (agentId logId : String) (now : Nat) : KernelState :=
  let newLog : AgentLog := { id := logId, timestamp := now, type := ty, message := message }
  let st1 := { st with globalLogs := takeLast 100 (st.globalLogs ++ [newLog]) }
  if agentId = "MASTER" then st1
  else { st1 with agents := mapById agentId (fun a => { a with logs := a.logs ++ [newLog] }) st1.agents }

/-- The fresh worker record built by spawnAgent. -/
def mkWorker (id name role task : String) (deps : List String) : WorkerAgent :=
  { id := id, name := name, role := role, status := AgentStatus.IDLE, progress := 0,
    currentTask := some task, logs := [], memoryUsage := 20, dependencies := deps }

/-- spawnAgent from useAgentSystem.ts: create a session for a fresh random
id, append a new IDLE worker to the agents array, and log the kernel
message. The fresh id and the log metadata are parameters. -/
def spawnAgent (st : KernelState) (name role task : String) (deps : List String)
    (freshId logId : String) (now : Nat) : KernelState :=
  let st1 := { st with sessions := st.sessions ++ [freshId],
                       agents := st.agents ++ [mkWorker freshId name role task deps] }
  addLog st1 ("[KERNEL] Initialized neural container for " ++ name ++ " (" ++ role ++ ")")
    LogType.success "MASTER" logId now

/-- The per-agent effect of the fleet-wide kill switch. -/
def killOne (a : WorkerAgent) : WorkerAgent :=
  { a with status := AgentStatus.KILLED,
           currentTask := some "Terminated by Master Kill-Switch",
           progress := 0 }

/-- killAllAgents from useAgentSystem.ts: map every agent to KILLED with the
terminated task label and zero progress, clear all sessions, and log. -/
def killAllAgents (st : KernelState) (logId : String) (now : Nat) : KernelState :=
  let st1 := { st with agents := st.agents.map killOne, sessions := [] }
  addLog st1 "GLOBAL KILL-SWITCH ACTIVATED. All processes terminated." LogType.error
    "MASTER" logId now

/-- One artifact write into the registry, from the setArtifacts updater of
runScheduler: replace the first entry with the same path, else append. -/
def upsertArtifact (registry : List AgentArtifact) (newArt : AgentArtifact) :
    List AgentArtifact :=
  match registry.findIdx? (fun a => a.path == newArt.path) with
  | some i => registry.set i newArt
  | none => registry ++ [newArt]

/-- The whole setArtifacts updater: fold the parsed artifacts into the
registry one by one. -/
def upsertArtifacts (registry : List AgentArtifact) (arts : List AgentArtifact) :
    List AgentArtifact :=
  arts.foldl upsertArtifact registry

/-- The paths held by the registry. -/
def artifactPaths (registry : List AgentArtifact) : List String :=
  registry.map (fun a => a.path)

/-- Nondeterministic inputs of one scheduler turn: the random artifact ids,
the random log ids, the timestamp, and the random memory increment. -/
structure TurnMeta where
  artId : Nat → String
  artLogId : String
  thoughtLogId : String
  successLogId : String
  now : Nat
  memInc : Nat

/-- The final per-agent update of a turn in runScheduler: status and progress
from the completion flag, memory bumped by the random increment. -/
def advanceAgent (isComplete : Bool) (memInc : Nat) (a : WorkerAgent) : WorkerAgent :=
  { a with status := if isComplete then AgentStatus.COMPLETED else AgentStatus.WORKING,
           progress := if isComplete then 100 else min 99 (a.progress + 15),
           memoryUsage := a.memoryUsage + memInc }

/-- Lazy session hydration of runScheduler: re-create the session when it is
missing (modelled as recording the id as owning a session). -/
def hydrateSession (tid : String) (st : KernelState) : KernelState :=
  if st.sessions.contains tid then st else { st with sessions := st.sessions ++ [tid] }

/-- The artifact log line of runScheduler. -/
def artifactLogMessage (arts : List AgentArtifact) : String :=
  "Generated " ++ toString arts.length ++ " artifact(s): " ++
    String.intercalate ", " (arts.map (fun a => a.path))

/-- Overwrite the status of one agent record. -/
def setStatus (sts : AgentStatus) (a : WorkerAgent) : WorkerAgent :=
  { a with status := sts }

/-- Turn stage 1 of runScheduler: an IDLE target is first marked WORKING. -/
def stageStart (target : WorkerAgent) (st : KernelState) : KernelState :=
  if target.status = AgentStatus.IDLE
  then { st with agents := mapById target.id (setStatus AgentStatus.WORKING) st.agents }
  else st

/-- Turn stage 3 of runScheduler: the target is marked THINKING just before
the stepper call. -/
def stageThinking (tid : String) (st : KernelState) : KernelState :=
  { st with agents := mapById tid (setStatus AgentStatus.THINKING) st.agents }

/-- Turn stage 4 of runScheduler: when the response produced artifacts,
upsert them into the registry. -/
def stageArtifacts (arts : List AgentArtifact) (st : KernelState) : KernelState :=
  if arts.isEmpty then st
  else { st with artifacts := upsertArtifacts st.artifacts arts }

/-- Turn stage 5 of runScheduler: when artifacts were produced, log them to
the target agent. -/
def stageArtifactLog (arts : List AgentArtifact) (tid artLogId : String) (now : Nat)
    (st : KernelState) : KernelState :=
  if arts.isEmpty then st
  else addLog st (artifactLogMessage arts) LogType.artifact tid artLogId now

/-- Turn stage 6 of runScheduler: when the display message is nonempty, log
it to the target agent, as info for a broadcast and as thought otherwise. -/
def stageThoughtLog (raw : List Char) (tid thoughtLogId : String) (now : Nat)
    (st : KernelState) : KernelState :=
  if (displayResponse raw).isEmpty then st
  else addLog st (String.mk (displayResponse raw))
         (if isBroadcastResponse raw then LogType.info else LogType.thought)
         tid thoughtLogId now

/-- Turn stage 7 of runScheduler: the final status/progress/memory update of
the target. -/
def stageAdvance (tid : String) (isComplete : Bool) (memInc : Nat)
    (st : KernelState) : KernelState :=
  { st with agents := mapById tid (advanceAgent isComplete memInc) st.agents }

/-- Turn stage 8 of runScheduler: on completion, log the report to MASTER. -/
def stageCompletionLog (isComplete : Bool) (name successLogId : String) (now : Nat)
    (st : KernelState) : KernelState :=
  if isComplete
  then addLog st ("[" ++ name ++ "] Reporting completion.") LogType.success
         "MASTER" successLogId now
  else st

/-- One full turn of runScheduler for an already-selected target agent, with
the stepper response text given: mark WORKING when starting from IDLE,
hydrate the session, mark THINKING, parse and upsert artifacts, emit the
artifact and thought/info logs, apply the final status/progress update, and
emit the completion log. Every state mutation of the source body appears in
order; the transient broadcast event and latest-artifact prompt are
view-layer state and carry no fleet data. -/
def runTurn (st : KernelState) (target : WorkerAgent) (responseText : String)
    (m : TurnMeta) : KernelState :=
  let raw := responseText.toList
  let newArtifacts := parseArtifacts raw target.name m.artId m.now
  stageCompletionLog (isCompleteResponse raw) target.name m.successLogId m.now
    (stageAdvance target.id (isCompleteResponse raw) m.memInc
      (stageThoughtLog raw target.id m.thoughtLogId m.now
        (stageArtifactLog newArtifacts target.id m.artLogId m.now
          (stageArtifacts newArtifacts
            (stageThinking target.id
              (hydrateSession target.id
                (stageStart target st)))))))

/-- Bool test: the agent qualifies for scheduling (the activeAgents filter). -/
def isActive (a : WorkerAgent) : Bool :=
  a.status == AgentStatus.WORKING || a.status == AgentStatus.IDLE

/-- Candidate selection of runScheduler: among active agents, the first
WORKING one, else the first IDLE one. -/
def selectTarget (agents : List WorkerAgent) : Option WorkerAgent :=
  let activeAgents := agents.filter isActive
  (activeAgents.find? (fun a => a.status == AgentStatus.WORKING)).orElse
    (fun _ => activeAgents.find? (fun a => a.status == AgentStatus.IDLE))

/-- One tick of the scheduler loop: do nothing while a turn is in flight
(processingRef set), otherwise select a candidate and, when one exists, run
its turn on the stepper outcome; idle the tick when none qualifies. -/
def runScheduler (processing : Bool) (st : KernelState) (outcome : StepOutcome)
    (m : TurnMeta) : KernelState :=
  if processing then st
  else
    match selectTarget st.agents with
    | none => st
    | some target => runTurn st target (stepAgent outcome) m

/-- handleCommand from useAgentSystem.ts: ignore blank input; when workers
exist, discard the whole fleet (agents, artifacts, sessions); log the
directive and the formulated strategy; spawn one worker per task spec of
the planner result, by appending. Random ids are supplied per spawn index. -/
def handleCommand (st : KernelState) (input : String) (plan : List TaskSpec)
    (ids logIds : Nat → String) (dirLogId stratLogId : String) (now : Nat) : KernelState :=
  if (trimC input.toList).isEmpty then st
  else
    let st0 := if st.agents.isEmpty then st
               else { st with agents := [], artifacts := [], sessions := [] }
    let st1 := addLog st0 ("[MASTER] Directive received: \"" ++ input ++ "\"")
                 LogType.info "MASTER" dirLogId now
    let st2 := addLog st1 ("[MASTER] Strategy formulated. Deploying " ++
                 toString plan.length ++ " units.") LogType.info "MASTER" stratLogId now
    plan.enum.foldl
      (fun s pair => spawnAgent s pair.2.name pair.2.role pair.2.task pair.2.dependencies
        (ids pair.1) (logIds pair.1) now)
      st2

/-! ### General lemmas about the store operations -/

theorem mapById_length (tid : String) (f : WorkerAgent → WorkerAgent)
    (l : List WorkerAgent) : (mapById tid f l).length = l.length := by
  simp [mapById]

theorem mem_mapById_of_ne {a : WorkerAgent} {l : List WorkerAgent}
    (tid : String) (f : WorkerAgent → WorkerAgent) (ha : a ∈ l) (hne : a.id ≠ tid) :
    a ∈ mapById tid f l := by
  unfold mapById
  rw [List.mem_map]
  exact ⟨a, ha, if_neg hne⟩

theorem mem_mapById_target {b : WorkerAgent} {l : List WorkerAgent}
    {tid : String} {f : WorkerAgent → WorkerAgent}
    (hb : b ∈ mapById tid f l) (hid : b.id = tid) :
    ∃ a, a ∈ l ∧ a.id = tid ∧ b = f a := by
  rcases List.mem_map.1 hb with ⟨a, ha, hba⟩
  by_cases h : a.id = tid
  · exact ⟨a, ha, h, by rw [← hba, if_pos h]⟩
  · rw [if_neg h] at hba
    exact absurd (hba ▸ hid) h

theorem mem_mapById_idprog {b : WorkerAgent} {l : List WorkerAgent}
    {tid : String} {f : WorkerAgent → WorkerAgent}
    (hb : b ∈ mapById tid f l)
    (hfid : ∀ x, (f x).id = x.id) (hfpr : ∀ x, (f x).progress = x.progress) :
    ∃ a, a ∈ l ∧ b.id = a.id ∧ b.progress = a.progress := by
  rcases List.mem_map.1 hb with ⟨a, ha, hba⟩
  by_cases h : a.id = tid
  · rw [if_pos h] at hba
    exact ⟨a, ha, by rw [← hba, hfid], by rw [← hba, hfpr]⟩
  · rw [if_neg h] at hba
    exact ⟨a, ha, by rw [hba], by rw [hba]⟩

theorem takeLast_length_le (n : Nat) (xs : List AgentLog) :
    (takeLast n xs).length ≤ n := by
  simp only [takeLast, List.length_drop]
  omega

theorem takeLast_suffix (n : Nat) (xs : List AgentLog) :
    List.IsSuffix (takeLast n xs) xs :=
  List.drop_suffix _ _

theorem takeLast_length_of_le {n : Nat} {xs : List AgentLog} (h : n ≤ xs.length) :
    (takeLast n xs).length = n := by
  simp only [takeLast, List.length_drop]
  omega

theorem takeLast_append_one (n : Nat) (hn : 1 ≤ n) (xs : List AgentLog) (x : AgentLog) :
    ∃ ys, takeLast n (xs ++ [x]) = ys ++ [x] := by
  refine ⟨xs.drop ((xs ++ [x]).length - n), ?_⟩
  simp only [takeLast, List.drop_append_eq_append_drop]
  have h0 : (xs ++ [x]).length - n - xs.length = 0 := by
    simp only [List.length_append, List.length_cons, List.length_nil]
    omega
  rw [h0]
  rfl

theorem mem_takeLast_append_one (n : Nat) (hn : 1 ≤ n) (xs : List AgentLog) (x : AgentLog) :
    x ∈ takeLast n (xs ++ [x]) := by
  rcases takeLast_append_one n hn xs x with ⟨ys, hys⟩
  rw [hys]
  simp

theorem mem_takeLast_concat_pair (n : Nat) (hn : 2 ≤ n) (ys : List AgentLog)
    (x z : AgentLog) : x ∈ takeLast n ((ys ++ [x]) ++ [z]) := by
  rw [List.append_assoc]
  have hk : (ys ++ ([x] ++ [z])).length - n ≤ ys.length := by
    simp only [List.length_append, List.length_cons, List.length_nil]
    omega
  simp only [takeLast, List.drop_append_eq_append_drop]
  have h0 : (ys ++ ([x] ++ [z])).length - n - ys.length = 0 := by
    simp only [List.length_append, List.length_cons, List.length_nil]
    omega
  rw [h0]
  simp

theorem addLog_agents_length (st : KernelState) (msg : String) (ty : LogType)
    (aid lid : String) (now : Nat) :
    (addLog st msg ty aid lid now).agents.length = st.agents.length := by
  unfold addLog
  split
  · rfl
  · exact mapById_length _ _ _

theorem addLog_mem_of_ne {a : WorkerAgent} {st : KernelState}
    (msg : String) (ty : LogType) (aid lid : String) (now : Nat)
    (ha : a ∈ st.agents) (hne : a.id ≠ aid) :
    a ∈ (addLog st msg ty aid lid now).agents := by
  unfold addLog
  split
  · exact ha
  · exact mem_mapById_of_ne _ _ ha hne

theorem addLog_mem_idprog {b : WorkerAgent} {st : KernelState}
    {msg : String} {ty : LogType} {aid lid : String} {now : Nat}
    (hb : b ∈ (addLog st msg ty aid lid now).agents) :
    ∃ a, a ∈ st.agents ∧ b.id = a.id ∧ b.progress = a.progress := by
  unfold addLog at hb
  split at hb
  · exact ⟨b, hb, rfl, rfl⟩
  · exact mem_mapById_idprog hb (fun _ => rfl) (fun _ => rfl)

theorem addLog_artifacts (st : KernelState) (msg : String) (ty : LogType)
    (aid lid : String) (now : Nat) :
    (addLog st msg ty aid lid now).artifacts = st.artifacts := by
  unfold addLog
  split <;> rfl

theorem addLog_globalLogs (st : KernelState) (msg : String) (ty : LogType)
    (aid lid : String) (now : Nat) :
    (addLog st msg ty aid lid now).globalLogs =
      takeLast 100 (st.globalLogs ++ [⟨lid, now, ty, msg⟩]) := by
  unfold addLog
  split <;> rfl

theorem addLog_master_agents (st : KernelState) (msg : String) (ty : LogType)
    (lid : String) (now : Nat) :
    (addLog st msg ty "MASTER" lid now).agents = st.agents := by
  unfold addLog
  rw [if_pos rfl]

/-! ### Per-stage lemmas about a scheduler turn -/

theorem hydrateSession_agents (tid : String) (st : KernelState) :
    (hydrateSession tid st).agents = st.agents := by
  unfold hydrateSession
  split <;> rfl

theorem hydrateSession_artifacts (tid : String) (st : KernelState) :
    (hydrateSession tid st).artifacts = st.artifacts := by
  unfold hydrateSession
  split <;> rfl

theorem stageStart_mem_of_ne {a : WorkerAgent} {st : KernelState}
    (target : WorkerAgent) (ha : a ∈ st.agents) (hne : a.id ≠ target.id) :
    a ∈ (stageStart target st).agents := by
  unfold stageStart
  split
  · exact mem_mapById_of_ne _ _ ha hne
  · exact ha

theorem stageStart_mem_idprog {b : WorkerAgent} {st : KernelState}
    {target : WorkerAgent} (hb : b ∈ (stageStart target st).agents) :
    ∃ a, a ∈ st.agents ∧ b.id = a.id ∧ b.progress = a.progress := by
  unfold stageStart at hb
  split at hb
  · exact mem_mapById_idprog hb (fun _ => rfl) (fun _ => rfl)
  · exact ⟨b, hb, rfl, rfl⟩

theorem stageStart_length (target : WorkerAgent) (st : KernelState) :
    (stageStart target st).agents.length = st.agents.length := by
  unfold stageStart
  split
  · exact mapById_length _ _ _
  · rfl

theorem stageStart_artifacts (target : WorkerAgent) (st : KernelState) :
    (stageStart target st).artifacts = st.artifacts := by
  unfold stageStart
  split <;> rfl

theorem stageThinking_mem_of_ne {a : WorkerAgent} {st : KernelState}
    (tid : String) (ha : a ∈ st.agents) (hne : a.id ≠ tid) :
    a ∈ (stageThinking tid st).agents :=
  mem_mapById_of_ne _ _ ha hne

theorem stageThinking_mem_idprog {b : WorkerAgent} {st : KernelState}
    {tid : String} (hb : b ∈ (stageThinking tid st).agents) :
    ∃ a, a ∈ st.agents ∧ b.id = a.id ∧ b.progress = a.progress :=
  mem_mapById_idprog hb (fun _ => rfl) (fun _ => rfl)

theorem stageThinking_length (tid : String) (st : KernelState) :
    (stageThinking tid st).agents.length = st.agents.length :=
  mapById_length _ _ _

theorem stageArtifacts_agents (arts : List AgentArtifact) (st : KernelState) :
    (stageArtifacts arts st).agents = st.agents := by
  unfold stageArtifacts
  split <;> rfl

theorem stageArtifacts_artifacts (arts : List AgentArtifact) (st : KernelState) :
    (stageArtifacts arts st).artifacts =
      (if arts.isEmpty then st.artifacts else upsertArtifacts st.artifacts arts) := by
  unfold stageArtifacts
  split <;> simp_all

theorem stageArtifactLog_mem_of_ne {a : WorkerAgent} {st : KernelState}
    (arts : List AgentArtifact) (tid artLogId : String) (now : Nat)
    (ha : a ∈ st.agents) (hne : a.id ≠ tid) :
    a ∈ (stageArtifactLog arts tid artLogId now st).agents := by
  unfold stageArtifactLog
  split
  · exact ha
  · exact addLog_mem_of_ne _ _ _ _ _ ha hne

theorem stageArtifactLog_mem_idprog {b : WorkerAgent} {st : KernelState}
    {arts : List AgentArtifact} {tid artLogId : String} {now : Nat}
    (hb : b ∈ (stageArtifactLog arts tid artLogId now st).agents) :
    ∃ a, a ∈ st.agents ∧ b.id = a.id ∧ b.progress = a.progress := by
  unfold stageArtifactLog at hb
  split at hb
  · exact ⟨b, hb, rfl, rfl⟩
  · exact addLog_mem_idprog hb

theorem stageArtifactLog_length (arts : List AgentArtifact) (tid artLogId : String)
    (now : Nat) (st : KernelState) :
    (stageArtifactLog arts tid artLogId now st).agents.length = st.agents.length := by
  unfold stageArtifactLog
  split
  · rfl
  · exact addLog_agents_length _ _ _ _ _ _

theorem stageArtifactLog_artifacts (arts : List AgentArtifact) (tid artLogId : String)
    (now : Nat) (st : KernelState) :
    (stageArtifactLog arts tid artLogId now st).artifacts = st.artifacts := by
  unfold stageArtifactLog
  split
  · rfl
  · exact addLog_artifacts _ _ _ _ _ _

theorem stageThoughtLog_mem_of_ne {a : WorkerAgent} {st : KernelState}
    (raw : List Char) (tid thoughtLogId : String) (now : Nat)
    (ha : a ∈ st.agents) (hne : a.id ≠ tid) :
    a ∈ (stageThoughtLog raw tid thoughtLogId now st).agents := by
  unfold stageThoughtLog
  split
  · exact ha
  · exact addLog_mem_of_ne _ _ _ _ _ ha hne

theorem stageThoughtLog_mem_idprog {b : WorkerAgent} {st : KernelState}
    {raw : List Char} {tid thoughtLogId : String} {now : Nat}
    (hb : b ∈ (stageThoughtLog raw tid thoughtLogId now st).agents) :
    ∃ a, a ∈ st.agents ∧ b.id = a.id ∧ b.progress = a.progress := by
  unfold stageThoughtLog at hb
  split at hb
  · exact ⟨b, hb, rfl, rfl⟩
  · exact addLog_mem_idprog hb

theorem stageThoughtLog_length (raw : List Char) (tid thoughtLogId : String)
    (now : Nat) (st : KernelState) :
    (stageThoughtLog raw tid thoughtLogId now st).agents.length = st.agents.length := by
  unfold stageThoughtLog
  split
  · rfl
  · exact addLog_agents_length _ _ _ _ _ _

theorem stageThoughtLog_artifacts (raw : List Char) (tid thoughtLogId : String)
    (now : Nat) (st : KernelState) :
    (stageThoughtLog raw tid thoughtLogId now st).artifacts = st.artifacts := by
  unfold stageThoughtLog
  split
  · rfl
  · exact addLog_artifacts _ _ _ _ _ _

theorem stageAdvance_mem_of_ne {a : WorkerAgent} {st : KernelState}
    (tid : String) (ic : Bool) (memInc : Nat) (ha : a ∈ st.agents) (hne : a.id ≠ tid) :
    a ∈ (stageAdvance tid ic memInc st).agents :=
  mem_mapById_of_ne _ _ ha hne

theorem stageAdvance_length (tid : String) (ic : Bool) (memInc : Nat) (st : KernelState) :
    (stageAdvance tid ic memInc st).agents.length = st.agents.length :=
  mapById_length _ _ _

theorem stageAdvance_artifacts (tid : String) (ic : Bool) (memInc : Nat)
    (st : KernelState) : (stageAdvance tid ic memInc st).artifacts = st.artifacts := rfl

theorem stageCompletionLog_agents (ic : Bool) (name successLogId : String) (now : Nat)
    (st : KernelState) : (stageCompletionLog ic name successLogId now st).agents = st.agents := by
  unfold stageCompletionLog
  split
  · exact addLog_master_agents _ _ _ _ _
  · rfl

theorem stageCompletionLog_artifacts (ic : Bool) (name successLogId : String) (now : Nat)
    (st : KernelState) :
    (stageCompletionLog ic name successLogId now st).artifacts = st.artifacts := by
  unfold stageCompletionLog
  split
  · exact addLog_artifacts _ _ _ _ _ _
  · rfl

/-! ### Main facts about one scheduler turn -/

theorem runTurn_mem_of_ne {a : WorkerAgent} {st : KernelState}
    (target : WorkerAgent) (r : String) (m : TurnMeta)
    (ha : a ∈ st.agents) (hne : a.id ≠ target.id) :
    a ∈ (runTurn st target r m).agents := by
  unfold runTurn
  rw [stageCompletionLog_agents]
  apply stageAdvance_mem_of_ne _ _ _ _ hne
  apply stageThoughtLog_mem_of_ne _ _ _ _ _ hne
  apply stageArtifactLog_mem_of_ne _ _ _ _ _ hne
  rw [stageArtifacts_agents]
  apply stageThinking_mem_of_ne _ _ hne
  rw [hydrateSession_agents]
  exact stageStart_mem_of_ne _ ha hne

theorem runTurn_agents_length (st : KernelState) (target : WorkerAgent) (r : String)
    (m : TurnMeta) : (runTurn st target r m).agents.length = st.agents.length := by
  unfold runTurn
  rw [stageCompletionLog_agents, stageAdvance_length, stageThoughtLog_length,
    stageArtifactLog_length, stageArtifacts_agents, stageThinking_length,
    hydrateSession_agents, stageStart_length]

theorem runTurn_target_state {b : WorkerAgent} {st : KernelState}
    {target : WorkerAgent} {r : String} {m : TurnMeta}
    (hb : b ∈ (runTurn st target r m).agents) (hid : b.id = target.id) :
    ∃ a, a ∈ st.agents ∧ a.id = target.id ∧
      b.status = (if isCompleteResponse r.toList then AgentStatus.COMPLETED
                  else AgentStatus.WORKING) ∧
      b.progress = (if isCompleteResponse r.toList then 100
                    else min 99 (a.progress + 15)) := by
  unfold runTurn at hb
  rw [stageCompletionLog_agents] at hb
  rcases mem_mapById_target hb hid with ⟨c, hc, hcid, hbc⟩
  rcases stageThoughtLog_mem_idprog hc with ⟨d, hd, hdid, hdpr⟩
  rcases stageArtifactLog_mem_idprog hd with ⟨e, he, heid, hepr⟩
  rw [stageArtifacts_agents] at he
  rcases stageThinking_mem_idprog he with ⟨f, hf, hfid, hfpr⟩
  rw [hydrateSession_agents] at hf
  rcases stageStart_mem_idprog hf with ⟨g, hg, hgid, hgpr⟩
  refine ⟨g, hg, ?_, ?_, ?_⟩
  · rw [← hgid, ← hfid, ← heid, ← hdid, hcid]
  · rw [hbc]
    unfold advanceAgent
    split <;> simp
  · rw [hbc]
    unfold advanceAgent
    have hpr : c.progress = g.progress := by rw [hdpr, hepr, hfpr, hgpr]
    split <;> simp [hpr]

theorem stageThinking_artifacts (tid : String) (st : KernelState) :
    (stageThinking tid st).artifacts = st.artifacts := rfl

theorem stageAdvance_globalLogs (tid : String) (ic : Bool) (memInc : Nat)
    (st : KernelState) : (stageAdvance tid ic memInc st).globalLogs = st.globalLogs := rfl

theorem runTurn_artifacts (st : KernelState) (target : WorkerAgent) (r : String)
    (m : TurnMeta) :
    (runTurn st target r m).artifacts =
      (if (parseArtifacts r.toList target.name m.artId m.now).isEmpty
       then st.artifacts
       else upsertArtifacts st.artifacts (parseArtifacts r.toList target.name m.artId m.now)) := by
  unfold runTurn
  rw [stageCompletionLog_artifacts, stageAdvance_artifacts, stageThoughtLog_artifacts,
    stageArtifactLog_artifacts, stageArtifacts_artifacts, stageThinking_artifacts,
    hydrateSession_artifacts, stageStart_artifacts]

theorem stageCompletionLog_globalLogs (ic : Bool) (name successLogId : String) (now : Nat)
    (st : KernelState) :
    (stageCompletionLog ic name successLogId now st).globalLogs =
      (if ic
       then takeLast 100 (st.globalLogs ++
              [⟨successLogId, now, LogType.success, "[" ++ name ++ "] Reporting completion."⟩])
       else st.globalLogs) := by
  unfold stageCompletionLog
  split <;> simp_all [addLog_globalLogs]

theorem runTurn_display_log (st : KernelState) (target : WorkerAgent) (r : String)
    (m : TurnMeta) (hne : (displayResponse r.toList).isEmpty = false) :
    ∃ l, l ∈ (runTurn st target r m).globalLogs ∧
      l.message = String.mk (displayResponse r.toList) ∧
      l.type = (if isBroadcastResponse r.toList then LogType.info else LogType.thought) := by
  unfold runTurn
  refine ⟨⟨m.thoughtLogId, m.now,
    if isBroadcastResponse r.toList then LogType.info else LogType.thought,
    String.mk (displayResponse r.toList)⟩, ?_, rfl, rfl⟩
  rw [stageCompletionLog_globalLogs, stageAdvance_globalLogs]
  have hlog : (stageThoughtLog r.toList target.id m.thoughtLogId m.now
      (stageArtifactLog (parseArtifacts r.toList target.name m.artId m.now) target.id
        m.artLogId m.now
        (stageArtifacts (parseArtifacts r.toList target.name m.artId m.now)
          (stageThinking target.id (hydrateSession target.id (stageStart target st)))))).globalLogs =
      takeLast 100 ((stageArtifactLog (parseArtifacts r.toList target.name m.artId m.now)
          target.id m.artLogId m.now
          (stageArtifacts (parseArtifacts r.toList target.name m.artId m.now)
            (stageThinking target.id (hydrateSession target.id (stageStart target st))))).globalLogs ++
        [⟨m.thoughtLogId, m.now,
          if isBroadcastResponse r.toList then LogType.info else LogType.thought,
          String.mk (displayResponse r.toList)⟩]) := by
    unfold stageThoughtLog
    rw [hne]
    simp only [Bool.false_eq_true, if_false, addLog_globalLogs]
  rw [hlog]
  split
  · rcases takeLast_append_one 100 (by omega) _
      (⟨m.thoughtLogId, m.now,
        if isBroadcastResponse r.toList then LogType.info else LogType.thought,
        String.mk (displayResponse r.toList)⟩ : AgentLog) with ⟨ys, hys⟩
    rw [hys]
    exact mem_takeLast_concat_pair 100 (by omega) _ _ _
  · exact mem_takeLast_append_one 100 (by omega) _ _

/-! ### Lemmas about the artifact registry -/

theorem upsertArtifact_nil (b : AgentArtifact) : upsertArtifact [] b = [b] := rfl

theorem upsertArtifact_cons (x : AgentArtifact) (xs : List AgentArtifact)
    (b : AgentArtifact) :
    upsertArtifact (x :: xs) b =
      (if x.path = b.path then b :: xs else x :: upsertArtifact xs b) := by
  unfold upsertArtifact
  rw [List.findIdx?_cons]
  by_cases h : x.path = b.path
  · simp [h]
  · have hb : (x.path == b.path) = false := by
      simp [h]
    rw [hb]
    simp only [Bool.false_eq_true, if_false, if_neg h, List.findIdx?_succ]
    cases hfound : List.findIdx? (fun a => a.path == b.path) xs with
    | none => simp
    | some i => simp [List.set_cons_succ]

theorem mem_paths_upsertArtifact {q : String} {reg : List AgentArtifact}
    {b : AgentArtifact} (hq : q ∈ artifactPaths (upsertArtifact reg b)) :
    q ∈ artifactPaths reg ∨ q = b.path := by
  induction reg with
  | nil =>
    rw [upsertArtifact_nil] at hq
    simp only [artifactPaths, List.map_cons, List.map_nil, List.mem_cons,
      List.not_mem_nil, or_false] at hq
    exact Or.inr hq
  | cons x xs ih =>
    rw [upsertArtifact_cons] at hq
    split at hq
    · simp only [artifactPaths, List.map_cons, List.mem_cons] at hq ⊢
      rcases hq with h | h
      · exact Or.inr h
      · exact Or.inl (Or.inr h)
    · simp only [artifactPaths, List.map_cons, List.mem_cons] at hq ⊢
      rcases hq with h | h
      · exact Or.inl (Or.inl h)
      · rcases ih h with h' | h'
        · exact Or.inl (Or.inr h')
        · exact Or.inr h'

theorem upsertArtifact_nodup {reg : List AgentArtifact} {b : AgentArtifact}
    (hnd : (artifactPaths reg).Nodup) :
    (artifactPaths (upsertArtifact reg b)).Nodup := by
  induction reg with
  | nil =>
    rw [upsertArtifact_nil]
    simp [artifactPaths]
  | cons x xs ih =>
    simp only [artifactPaths, List.map_cons, List.nodup_cons] at hnd
    rw [upsertArtifact_cons]
    split
    · rename_i heq
      simp only [artifactPaths, List.map_cons, List.nodup_cons]
      exact ⟨heq ▸ hnd.1, hnd.2⟩
    · rename_i hne
      simp only [artifactPaths, List.map_cons, List.nodup_cons]
      refine ⟨fun hmem => ?_, ih hnd.2⟩
      rcases mem_paths_upsertArtifact hmem with h | h
      · exact hnd.1 h
      · exact hne h

theorem upsertArtifact_length_of_mem {reg : List AgentArtifact} {b : AgentArtifact}
    (hmem : b.path ∈ artifactPaths reg) :
    (upsertArtifact reg b).length = reg.length := by
  induction reg with
  | nil => simp [artifactPaths] at hmem
  | cons x xs ih =>
    rw [upsertArtifact_cons]
    split
    · simp
    · rename_i hne
      simp only [artifactPaths, List.map_cons, List.mem_cons] at hmem
      rcases hmem with h | h
      · exact absurd h.symm hne
      · simp [ih h]

theorem upsertArtifact_mem_path (reg : List AgentArtifact) (b : AgentArtifact) :
    b.path ∈ artifactPaths (upsertArtifact reg b) := by
  induction reg with
  | nil => simp [upsertArtifact_nil, artifactPaths]
  | cons x xs ih =>
    rw [upsertArtifact_cons]
    split
    · simp [artifactPaths]
    · simp only [artifactPaths, List.map_cons, List.mem_cons]
      exact Or.inr ih

theorem upsertArtifact_path_eq {reg : List AgentArtifact} {b : AgentArtifact}
    (hnd : (artifactPaths reg).Nodup) :
    ∀ x ∈ upsertArtifact reg b, x.path = b.path → x = b := by
  induction reg with
  | nil =>
    rw [upsertArtifact_nil]
    intro x hx _
    simpa using hx
  | cons y ys ih =>
    simp only [artifactPaths, List.map_cons, List.nodup_cons] at hnd
    rw [upsertArtifact_cons]
    split
    · rename_i heq
      intro x hx hxp
      rcases List.mem_cons.1 hx with h | h
      · exact h
      · exfalso
        apply hnd.1
        rw [heq, ← hxp]
        simpa using List.mem_map_of_mem (fun a => a.path) h
    · rename_i hne
      intro x hx hxp
      rcases List.mem_cons.1 hx with h | h
      · exact absurd (h ▸ hxp) hne
      · exact ih hnd.2 x h hxp

theorem upsertArtifact_filter_length {reg : List AgentArtifact} {b : AgentArtifact}
    (hnd : (artifactPaths reg).Nodup) :
    ((upsertArtifact reg b).filter (fun x => x.path == b.path)).length = 1 := by
  induction reg with
  | nil =>
    rw [upsertArtifact_nil]
    simp [List.filter_cons]
  | cons y ys ih =>
    simp only [artifactPaths, List.map_cons, List.nodup_cons] at hnd
    rw [upsertArtifact_cons]
    split
    · rename_i heq
      have hfil : ys.filter (fun x => x.path == b.path) = [] := by
        rw [List.filter_eq_nil_iff]
        intro a ha
        simp only [beq_iff_eq]
        intro hc
        exact hnd.1 (heq ▸ hc ▸ List.mem_map_of_mem (fun z => z.path) ha)
      simp [List.filter_cons, hfil]
    · rename_i hne
      have hy : (y.path == b.path) = false := by simp [hne]
      simp [List.filter_cons, hy, ih hnd.2]

theorem upsertArtifacts_nodup {reg : List AgentArtifact} {arts : List AgentArtifact}
    (hnd : (artifactPaths reg).Nodup) :
    (artifactPaths (upsertArtifacts reg arts)).Nodup := by
  induction arts generalizing reg with
  | nil => exact hnd
  | cons a as ih => exact ih (upsertArtifact_nodup hnd)

/-! ### Lemmas about scheduler selection -/

theorem addLog_sessions (st : KernelState) (msg : String) (ty : LogType)
    (aid lid : String) (now : Nat) :
    (addLog st msg ty aid lid now).sessions = st.sessions := by
  unfold addLog
  split <;> rfl

theorem selectTarget_working {agents : List WorkerAgent}
    (h : ∃ a ∈ agents, a.status = AgentStatus.WORKING) :
    ∃ w, selectTarget agents = some w ∧ w.status = AgentStatus.WORKING := by
  rcases h with ⟨a, ha, hst⟩
  unfold selectTarget
  have hmem : a ∈ agents.filter isActive :=
    List.mem_filter.2 ⟨ha, by simp [isActive, hst]⟩
  cases hf : (agents.filter isActive).find? (fun x => x.status == AgentStatus.WORKING) with
  | none =>
    exfalso
    have := List.find?_eq_none.1 hf a hmem
    simp [hst] at this
  | some w =>
    refine ⟨w, ?_, ?_⟩
    · simp [hf, Option.orElse]
    · have := List.find?_some hf
      simpa using this

theorem selectTarget_idle {agents : List WorkerAgent}
    (hno : ∀ a ∈ agents, a.status ≠ AgentStatus.WORKING)
    (h : ∃ a ∈ agents, a.status = AgentStatus.IDLE) :
    ∃ w, selectTarget agents = some w ∧ w.status = AgentStatus.IDLE := by
  unfold selectTarget
  have hfw : (agents.filter isActive).find? (fun x => x.status == AgentStatus.WORKING) = none := by
    rw [List.find?_eq_none]
    intro x hx
    have := hno x (List.mem_of_mem_filter hx)
    simp [this]
  rcases h with ⟨a, ha, hst⟩
  have hmem : a ∈ agents.filter isActive :=
    List.mem_filter.2 ⟨ha, by simp [isActive, hst]⟩
  cases hf : (agents.filter isActive).find? (fun x => x.status == AgentStatus.IDLE) with
  | none =>
    exfalso
    have := List.find?_eq_none.1 hf a hmem
    simp [hst] at this
  | some w =>
    refine ⟨w, ?_, ?_⟩
    · simp [hfw, hf, Option.orElse]
    · have := List.find?_some hf
      simpa using this

theorem selectTarget_none {agents : List WorkerAgent}
    (h : ∀ a ∈ agents, a.status ≠ AgentStatus.WORKING ∧ a.status ≠ AgentStatus.IDLE) :
    selectTarget agents = none := by
  unfold selectTarget
  have hfil : agents.filter isActive = [] := by
    rw [List.filter_eq_nil_iff]
    intro a ha
    simp only [isActive, Bool.or_eq_true, beq_iff_eq, not_or]
    exact h a ha
  rw [hfil]
  rfl

/-! ### Claim theorems -/

/-- Claim C10: the stepAgent wrapper is total with respect to stepper
failures: every error of the underlying call is returned as the fixed string
"ERROR: Connection interrupted.", a response without text (or with falsy
empty text) is returned as "Thinking...", and a nonempty response text is
returned unchanged — so a stepper failure reaches the scheduler as ordinary
response text, never as an exception. -/
theorem c10_stepAgent_total :
    (∀ e : String, stepAgent (StepOutcome.err e) = "ERROR: Connection interrupted.")
    ∧ stepAgent (StepOutcome.ok none) = "Thinking..."
    ∧ stepAgent (StepOutcome.ok (some "")) = "Thinking..."
    ∧ (∀ t : String, t ≠ "" → stepAgent (StepOutcome.ok (some t)) = t) := by
  refine ⟨fun _ => rfl, rfl, by simp [stepAgent], fun t ht => ?_⟩
  simp [stepAgent, ht]

/-- Witness for C10: a concrete nonempty response text is passed through. -/
theorem c10_witness :
    stepAgent (StepOutcome.ok (some "hello")) = "hello" :=
  c10_stepAgent_total.2.2.2 "hello" (by decide)

/-- Empty fleet store, the initial state of useAgentSystem. -/
def emptyState : KernelState :=
  { agents := [], globalLogs := [], artifacts := [], sessions := [] }

/-- Counterexample to claim C2 as stated: spawning a task spec whose name
matches an existing worker does not update that worker in place; spawnAgent
appends unconditionally, so the worker count increases and two workers then
share the name. -/
theorem c2_counterexample :
    ((spawnAgent (spawnAgent emptyState "Nexus" "planner" "t1" [] "id1" "L1" 0)
        "Nexus" "builder" "t2" [] "id2" "L2" 1).agents.map WorkerAgent.name)
        = ["Nexus", "Nexus"]
    ∧ (spawnAgent emptyState "Nexus" "planner" "t1" [] "id1" "L1" 0).agents.length = 1
    ∧ (spawnAgent (spawnAgent emptyState "Nexus" "planner" "t1" [] "id1" "L1" 0)
        "Nexus" "builder" "t2" [] "id2" "L2" 1).agents.length = 2 := by
  decide

/-- Claim C2 amended: spawnAgent always appends a fresh worker to the agents
array, regardless of any name collision with an existing worker, so every
spawn increases the worker count by exactly one and duplicate names are
possible. -/
theorem c2_spawn_appends :
    ∀ (st : KernelState) (name role task : String) (deps : List String)
      (freshId logId : String) (now : Nat),
      (spawnAgent st name role task deps freshId logId now).agents
        = st.agents ++ [mkWorker freshId name role task deps]
      ∧ (spawnAgent st name role task deps freshId logId now).agents.length
        = st.agents.length + 1 := by
  intro st name role task deps freshId logId now
  have hagents : (spawnAgent st name role task deps freshId logId now).agents
      = st.agents ++ [mkWorker freshId name role task deps] := by
    unfold spawnAgent
    rw [addLog_master_agents]
  exact ⟨hagents, by rw [hagents]; simp⟩

/-- A worker already in the terminal COMPLETED state. -/
def c6Worker : WorkerAgent :=
  { id := "w9", name := "Done", role := "builder", status := AgentStatus.COMPLETED,
    progress := 100, currentTask := some "finished", logs := [], memoryUsage := 25,
    dependencies := [] }

/-- A fleet holding only the completed worker. -/
def c6State : KernelState :=
  { agents := [c6Worker], globalLogs := [], artifacts := [], sessions := ["w9"] }

/-- Counterexample to claim C6 as stated: the fleet-wide kill does not leave
workers already in a terminal state unchanged — a COMPLETED worker is marked
KILLED, its progress is reset from 100 to 0 and its task text replaced. -/
theorem c6_counterexample :
    c6Worker.status = AgentStatus.COMPLETED
    ∧ (killAllAgents c6State "L9" 0).agents = [killOne c6Worker]
    ∧ killOne c6Worker ≠ c6Worker
    ∧ (killOne c6Worker).status = AgentStatus.KILLED
    ∧ (killOne c6Worker).progress = 0 := by
  decide

/-- Claim C6 amended: the fleet-wide kill operation marks every worker
KILLED regardless of its prior status (terminal states included), sets each
progress of each worker to 0 and its task text to the terminated marker, and
discards all external per-worker session handles. -/
theorem c6_kill_all :
    ∀ (st : KernelState) (logId : String) (now : Nat),
      (killAllAgents st logId now).agents = st.agents.map killOne
      ∧ (killAllAgents st logId now).sessions = []
      ∧ ∀ a : WorkerAgent,
          (killOne a).status = AgentStatus.KILLED
          ∧ (killOne a).progress = 0
          ∧ (killOne a).currentTask = some "Terminated by Master Kill-Switch" := by
  intro st logId now
  refine ⟨?_, ?_, fun a => ⟨rfl, rfl, rfl⟩⟩
  · unfold killAllAgents
    rw [addLog_master_agents]
  · unfold killAllAgents
    rw [addLog_sessions]

theorem addLog_agents_nonmaster (st : KernelState) (msg : String) (ty : LogType)
    (aid lid : String) (now : Nat) (haid : aid ≠ "MASTER") :
    (addLog st msg ty aid lid now).agents =
      mapById aid (fun a => { a with logs := a.logs ++ [⟨lid, now, ty, msg⟩] })
        st.agents := by
  unfold addLog
  rw [if_neg haid]

/-- Claim C8: every log append leaves the global log with at most the 100
most recent entries (it is a suffix of the appended log, so the oldest
entries are dropped first, and it is pinned at exactly 100 once the log is
full), while a per-worker log is extended by plain unbounded append. -/
theorem c8_log_ring :
    ∀ (st : KernelState) (msg : String) (ty : LogType) (aid lid : String) (now : Nat),
      (addLog st msg ty aid lid now).globalLogs.length ≤ 100
      ∧ List.IsSuffix (addLog st msg ty aid lid now).globalLogs
          (st.globalLogs ++ [⟨lid, now, ty, msg⟩])
      ∧ (99 ≤ st.globalLogs.length →
          (addLog st msg ty aid lid now).globalLogs.length = 100)
      ∧ (aid ≠ "MASTER" → ∀ a ∈ st.agents, a.id = aid →
          ({ a with logs := a.logs ++ [⟨lid, now, ty, msg⟩] } : WorkerAgent)
            ∈ (addLog st msg ty aid lid now).agents) := by
  intro st msg ty aid lid now
  refine ⟨?_, ?_, ?_, ?_⟩
  · rw [addLog_globalLogs]
    exact takeLast_length_le _ _
  · rw [addLog_globalLogs]
    exact takeLast_suffix _ _
  · intro hlen
    rw [addLog_globalLogs]
    apply takeLast_length_of_le
    simp only [List.length_append, List.length_cons, List.length_nil]
    omega
  · intro haid a ha hid
    rw [addLog_agents_nonmaster st msg ty aid lid now haid]
    unfold mapById
    exact List.mem_map.2 ⟨a, ha, by simp [hid]⟩

/-- A log entry used to fill the ring for the C8 witness. -/
def c8Entry : AgentLog := { id := "e", timestamp := 0, type := LogType.info, message := "x" }

/-- The agent of the C8 witness fleet. -/
def c8Agent : WorkerAgent :=
  { id := "w8", name := "Log", role := "r", status := AgentStatus.WORKING,
    progress := 1, currentTask := some "t", logs := [], memoryUsage := 20,
    dependencies := [] }

/-- A fleet store whose global log already holds 99 entries, and one agent. -/
def c8State : KernelState :=
  { agents := [c8Agent], globalLogs := List.replicate 99 c8Entry,
    artifacts := [], sessions := ["w8"] }

/-- Witness for C8: on the 99-entry log one more append pins the global log
at exactly 100 entries, and the appended per-worker log is present. -/
theorem c8_witness :
    (addLog c8State "m" LogType.info "w8" "L8" 5).globalLogs.length = 100
    ∧ ({ c8Agent with logs := [⟨"L8", 5, LogType.info, "m"⟩] } : WorkerAgent)
        ∈ (addLog c8State "m" LogType.info "w8" "L8" 5).agents :=
  ⟨(c8_log_ring c8State "m" LogType.info "w8" "L8" 5).2.2.1 (by decide),
   (c8_log_ring c8State "m" LogType.info "w8" "L8" 5).2.2.2 (by decide)
     c8Agent (by decide) rfl⟩

/-- Claim C7: writing the same artifact path twice leaves the registry with
exactly one entry at that path, whose content is the latest write; the
second write does not change the registry size; path-uniqueness of the
registry is an invariant of single writes, of whole-response writes, and of
a full scheduler turn. -/
theorem c7_artifact_registry :
    (∀ (reg : List AgentArtifact) (a1 a2 : AgentArtifact),
      (artifactPaths reg).Nodup → a1.path = a2.path →
        ((upsertArtifact (upsertArtifact reg a1) a2).filter
            (fun x => x.path == a2.path)).length = 1
        ∧ (∀ x ∈ upsertArtifact (upsertArtifact reg a1) a2,
            x.path = a2.path → x.content = a2.content)
        ∧ (upsertArtifact (upsertArtifact reg a1) a2).length
            = (upsertArtifact reg a1).length
        ∧ (artifactPaths (upsertArtifact (upsertArtifact reg a1) a2)).Nodup)
    ∧ (∀ (reg arts : List AgentArtifact),
        (artifactPaths reg).Nodup → (artifactPaths (upsertArtifacts reg arts)).Nodup)
    ∧ (∀ (st : KernelState) (target : WorkerAgent) (r : String) (m : TurnMeta),
        (runTurn st target r m).artifacts =
          (if (parseArtifacts r.toList target.name m.artId m.now).isEmpty
           then st.artifacts
           else upsertArtifacts st.artifacts
                  (parseArtifacts r.toList target.name m.artId m.now)))
    ∧ (∀ (st : KernelState) (target : WorkerAgent) (r : String) (m : TurnMeta),
        (artifactPaths st.artifacts).Nodup →
          (artifactPaths (runTurn st target r m).artifacts).Nodup) := by
  refine ⟨?_, fun reg arts hnd => upsertArtifacts_nodup hnd,
    fun st target r m => runTurn_artifacts st target r m, ?_⟩
  · intro reg a1 a2 hnd hpp
    have hnd1 : (artifactPaths (upsertArtifact reg a1)).Nodup := upsertArtifact_nodup hnd
    refine ⟨upsertArtifact_filter_length hnd1, ?_, ?_, upsertArtifact_nodup hnd1⟩
    · intro x hx hxp
      rw [upsertArtifact_path_eq hnd1 x hx hxp]
    · apply upsertArtifact_length_of_mem
      rw [← hpp]
      exact upsertArtifact_mem_path reg a1
  · intro st target r m hnd
    rw [runTurn_artifacts]
    split
    · exact hnd
    · exact upsertArtifacts_nodup hnd

/-- First artifact of the C7 witness. -/
def c7Art1 : AgentArtifact :=
  { id := "i1", path := "a/b.txt", content := "one", language := "txt",
    createdBy := "Nexus", lastModified := 1 }

/-- Second artifact of the C7 witness: same path, different content. -/
def c7Art2 : AgentArtifact :=
  { id := "i2", path := "a/b.txt", content := "two", language := "txt",
    createdBy := "Nexus", lastModified := 2 }

/-- Witness for C7: two writes of path a/b.txt into the empty registry leave
one entry at that path and the size of the one-write registry. -/
theorem c7_witness :
    ((upsertArtifact (upsertArtifact [] c7Art1) c7Art2).filter
        (fun x => x.path == c7Art2.path)).length = 1
    ∧ (upsertArtifact (upsertArtifact [] c7Art1) c7Art2).length
        = (upsertArtifact [] c7Art1).length :=
  ⟨((c7_artifact_registry.1 [] c7Art1 c7Art2 (by decide) (by decide)).1),
   ((c7_artifact_registry.1 [] c7Art1 c7Art2 (by decide) (by decide)).2.2.1)⟩

/-- Claim C9: a tick with a turn in flight is a no-op; otherwise the
selected candidate is a WORKING worker when one exists, else an IDLE worker
when one exists, else the tick is a no-op; and a completed turn advances
exactly one worker — the fleet size is unchanged and the record of every
other worker is untouched. -/
theorem c9_scheduler_tick :
    (∀ (st : KernelState) (o : StepOutcome) (m : TurnMeta),
      runScheduler true st o m = st)
    ∧ (∀ agents : List WorkerAgent,
        (∃ a ∈ agents, a.status = AgentStatus.WORKING) →
        ∃ w, selectTarget agents = some w ∧ w.status = AgentStatus.WORKING)
    ∧ (∀ agents : List WorkerAgent,
        (∀ a ∈ agents, a.status ≠ AgentStatus.WORKING) →
        (∃ a ∈ agents, a.status = AgentStatus.IDLE) →
        ∃ w, selectTarget agents = some w ∧ w.status = AgentStatus.IDLE)
    ∧ (∀ (st : KernelState) (o : StepOutcome) (m : TurnMeta),
        (∀ a ∈ st.agents, a.status ≠ AgentStatus.WORKING ∧ a.status ≠ AgentStatus.IDLE) →
        runScheduler false st o m = st)
    ∧ (∀ (st : KernelState) (o : StepOutcome) (m : TurnMeta) (target : WorkerAgent),
        selectTarget st.agents = some target →
        (runScheduler false st o m).agents.length = st.agents.length
        ∧ ∀ a ∈ st.agents, a.id ≠ target.id →
            a ∈ (runScheduler false st o m).agents) := by
  refine ⟨fun st o m => rfl, fun agents h => selectTarget_working h,
    fun agents hno h => selectTarget_idle hno h, ?_, ?_⟩
  · intro st o m h
    unfold runScheduler
    rw [if_neg (by simp), selectTarget_none h]
  · intro st o m target hsel
    have hrun : runScheduler false st o m = runTurn st target (stepAgent o) m := by
      unfold runScheduler
      rw [if_neg (by simp), hsel]
    rw [hrun]
    exact ⟨runTurn_agents_length st target (stepAgent o) m,
      fun a ha hne => runTurn_mem_of_ne target (stepAgent o) m ha hne⟩

/-- A terminal-only fleet for the C9 witness. -/
def c9State : KernelState :=
  { agents := [{ c6Worker with id := "w10", name := "Idle9" }],
    globalLogs := [], artifacts := [], sessions := [] }

/-- Turn metadata for the C9 witness. -/
def c9Meta : TurnMeta :=
  { artId := fun _ => "a", artLogId := "al", thoughtLogId := "tl",
    successLogId := "sl", now := 1, memInc := 0 }

/-- Witness for C9: with only a COMPLETED worker the free tick is a no-op. -/
theorem c9_witness :
    runScheduler false c9State (StepOutcome.ok none) c9Meta = c9State :=
  c9_scheduler_tick.2.2.2.1 c9State (StepOutcome.ok none) c9Meta (by decide)

/-- The WORKING worker whose stepper call fails in the C1 scenario. -/
def c1Worker : WorkerAgent :=
  { id := "w1", name := "Nexus", role := "planner", status := AgentStatus.WORKING,
    progress := 30, currentTask := some "plan", logs := [], memoryUsage := 20,
    dependencies := [] }

/-- A second, idle worker, to observe that it is untouched. -/
def c1Other : WorkerAgent :=
  { id := "w2", name := "Cipher", role := "coder", status := AgentStatus.IDLE,
    progress := 0, currentTask := some "code", logs := [], memoryUsage := 20,
    dependencies := [] }

/-- The two-worker fleet of the C1 scenario. -/
def c1State : KernelState :=
  { agents := [c1Worker, c1Other], globalLogs := [], artifacts := [],
    sessions := ["w1", "w2"] }

/-- Turn metadata of the C1 scenario. -/
def c1Meta : TurnMeta :=
  { artId := fun _ => "a", artLogId := "al", thoughtLogId := "tl",
    successLogId := "sl", now := 3, memInc := 2 }

/-- Counterexample to claim C1 as stated: when the stepper call fails, the
selected worker does not transition to any recovery-waiting state — the
AgentStatus enum of the code has no AwaitingRecovery member and WorkerAgent
has no lastErrorMessage field — it simply continues as WORKING with its
progress advanced, because stepAgent converts the failure into ordinary
response text. -/
theorem c1_counterexample :
    ((runScheduler false c1State (StepOutcome.err "network down") c1Meta).agents.map
        WorkerAgent.status) = [AgentStatus.WORKING, AgentStatus.IDLE]
    ∧ ((runScheduler false c1State (StepOutcome.err "network down") c1Meta).agents.map
        WorkerAgent.progress) = [45, 0] := by
  decide

/-- Claim C1 amended: for every scheduler turn in which the external stepper
call fails, stepAgent returns the fixed error text in place of an exception,
the selected worker ends the turn in status WORKING (there is no
AwaitingRecovery state and no lastErrorMessage field in the code), every
other worker is untouched, and the fleet survives intact — the failure never
crashes the scheduler loop. -/
theorem c1_step_failure_contained :
    ∀ (st : KernelState) (target : WorkerAgent) (e : String) (m : TurnMeta),
      stepAgent (StepOutcome.err e) = "ERROR: Connection interrupted."
      ∧ (∀ b ∈ (runTurn st target (stepAgent (StepOutcome.err e)) m).agents,
          b.id = target.id → b.status = AgentStatus.WORKING)
      ∧ (∀ a ∈ st.agents, a.id ≠ target.id →
          a ∈ (runTurn st target (stepAgent (StepOutcome.err e)) m).agents)
      ∧ (runTurn st target (stepAgent (StepOutcome.err e)) m).agents.length
          = st.agents.length := by
  intro st target e m
  have hs : stepAgent (StepOutcome.err e) = "ERROR: Connection interrupted." := rfl
  have hic : isCompleteResponse "ERROR: Connection interrupted.".toList = false := by
    decide
  refine ⟨rfl, ?_, ?_, runTurn_agents_length _ _ _ _⟩
  · intro b hb hid
    rcases runTurn_target_state hb hid with ⟨a, _, _, hstatus, _⟩
    rw [hstatus, hs, hic]
    simp
  · intro a ha hne
    exact runTurn_mem_of_ne target (stepAgent (StepOutcome.err e)) m ha hne

/-- Witness for C1: in the concrete failing turn the idle bystander worker
is present unchanged in the resulting fleet. -/
theorem c1_witness :
    c1Other ∈ (runTurn c1State c1Worker (stepAgent (StepOutcome.err "boom")) c1Meta).agents :=
  (c1_step_failure_contained c1State c1Worker "boom" c1Meta).2.2.1 c1Other
    (by decide) (by decide)

/-- The WORKING worker of the C4 scenario. -/
def c4Worker : WorkerAgent :=
  { id := "w4", name := "Flux", role := "coder", status := AgentStatus.WORKING,
    progress := 50, currentTask := some "code", logs := [], memoryUsage := 20,
    dependencies := [] }

/-- The single-worker fleet of the C4 scenario. -/
def c4State : KernelState :=
  { agents := [c4Worker], globalLogs := [], artifacts := [], sessions := ["w4"] }

/-- Turn metadata of the C4 scenario. -/
def c4Meta : TurnMeta :=
  { artId := fun _ => "a", artLogId := "al", thoughtLogId := "tl",
    successLogId := "sl", now := 5, memInc := 0 }

/-- A response whose completion token lies only inside a file block. -/
def c4Response : String := "<file path=\"b.txt\">done TASK_COMPLETE</file>"

/-- Counterexample to claim C4 as stated: this stepper response contains the
completion token, yet the worker does not end the turn at Completed with
progress 100 — the token sits inside a file block, the code checks the
file-stripped text, and the worker ends at WORKING with progress 50+15. -/
theorem c4_counterexample :
    containsSub TOKEN c4Response.toList = true
    ∧ ((runTurn c4State c4Worker c4Response c4Meta).agents.map WorkerAgent.status)
        = [AgentStatus.WORKING]
    ∧ ((runTurn c4State c4Worker c4Response c4Meta).agents.map WorkerAgent.progress)
        = [65] := by
  decide

/-- Claim C4 amended: for every turn whose file-stripped stepper response
contains the completion token, the worker ends the turn at Completed with
progress exactly 100; for every turn whose file-stripped response lacks the
token, the worker ends at Working with progress incremented by 15 and capped
at 99 — so progress stays at most 99 before completion and, from any
progress at most 99, is non-decreasing. -/
theorem c4_progress_dynamics :
    ∀ (st : KernelState) (target : WorkerAgent) (r : String) (m : TurnMeta),
      ∀ b ∈ (runTurn st target r m).agents, b.id = target.id →
        (isCompleteResponse r.toList = true →
          b.status = AgentStatus.COMPLETED ∧ b.progress = 100)
        ∧ (isCompleteResponse r.toList = false →
          b.status = AgentStatus.WORKING ∧ b.progress ≤ 99
          ∧ ∃ a, a ∈ st.agents ∧ a.id = target.id
              ∧ b.progress = min 99 (a.progress + 15)
              ∧ (a.progress ≤ 99 → a.progress ≤ b.progress)) := by
  intro st target r m b hb hid
  rcases runTurn_target_state hb hid with ⟨a, ha, haid, hstatus, hprog⟩
  constructor
  · intro hic
    rw [hstatus, hprog, hic]
    simp
  · intro hic
    rw [hstatus, hprog, hic]
    simp only [Bool.false_eq_true, if_false]
    refine ⟨by simp, by omega, a, ha, haid, by simp, fun hle => by omega⟩

/-- The worker record after the completing C4 witness turn. -/
def c4WorkerAfter : WorkerAgent :=
  { c4Worker with status := AgentStatus.COMPLETED, progress := 100 }

/-- Witness for C4: on the concrete turn whose response is the bare
completion token (surrounded by whitespace), the worker ends at Completed
with progress exactly 100. -/
theorem c4_witness :
    c4WorkerAfter.status = AgentStatus.COMPLETED ∧ c4WorkerAfter.progress = 100 :=
  (c4_progress_dynamics c4State c4Worker " TASK_COMPLETE " c4Meta c4WorkerAfter
    (by decide) rfl).1 (by decide)

/-- The WORKING worker of the C5 scenario. -/
def c5Worker : WorkerAgent :=
  { id := "w5", name := "Echo", role := "writer", status := AgentStatus.WORKING,
    progress := 10, currentTask := some "write", logs := [], memoryUsage := 20,
    dependencies := [] }

/-- The single-worker fleet of the C5 scenario. -/
def c5State : KernelState :=
  { agents := [c5Worker], globalLogs := [], artifacts := [], sessions := ["w5"] }

/-- Turn metadata of the C5 scenario. -/
def c5Meta : TurnMeta :=
  { artId := fun _ => "a", artLogId := "al", thoughtLogId := "tl",
    successLogId := "sl", now := 5, memInc := 0 }

/-- A response that carries the completion token only inside its file block. -/
def c5Response : String := "<file path=\"a/b.txt\">TASK_COMPLETE</file>"

/-- Counterexample to claim C5 as stated: the completion token appears as a
substring of the raw response text, yet the worker is not marked Completed —
detection runs on the file-stripped text, where the token is gone. -/
theorem c5_counterexample :
    containsSub TOKEN c5Response.toList = true
    ∧ isCompleteResponse c5Response.toList = false
    ∧ ((runTurn c5State c5Worker c5Response c5Meta).agents.map WorkerAgent.status)
        = [AgentStatus.WORKING] := by
  decide

/-- Claim C5 amended: the worker is marked Completed if and only if the
completion token appears as a substring of the trimmed, file-stripped
response text; and whenever the display message (file blocks replaced by the
placeholder, first occurrence of the token removed, trimmed) is nonempty, it
is logged with type info for a broadcast and thought otherwise. -/
theorem c5_completion_detection :
    ∀ (st : KernelState) (target : WorkerAgent) (r : String) (m : TurnMeta),
      (∀ b ∈ (runTurn st target r m).agents, b.id = target.id →
        (b.status = AgentStatus.COMPLETED ↔
          containsSub TOKEN (cleanAfterFiles r.toList) = true))
      ∧ (displayResponse r.toList ≠ [] →
        ∃ l, l ∈ (runTurn st target r m).globalLogs
          ∧ l.message = String.mk (displayResponse r.toList)
          ∧ l.type = (if isBroadcastResponse r.toList then LogType.info
                      else LogType.thought)) := by
  intro st target r m
  constructor
  · intro b hb hid
    rcases runTurn_target_state hb hid with ⟨a, _, _, hstatus, _⟩
    have hdef : isCompleteResponse r.toList
        = containsSub TOKEN (cleanAfterFiles r.toList) := rfl
    rw [hstatus, ← hdef]
    cases hic : isCompleteResponse r.toList <;> simp
  · intro hne
    have hne' : (displayResponse r.toList).isEmpty = false := by
      cases h : (displayResponse r.toList).isEmpty
      · rfl
      · exact absurd (List.isEmpty_iff.1 h) hne
    exact runTurn_display_log st target r m hne'

/-- The worker record after the completing C5 witness turn: the display
message "ok" is logged as a thought and the worker completes. -/
def c5WorkerAfter : WorkerAgent :=
  { c5Worker with
      status := AgentStatus.COMPLETED
      progress := 100
      logs := [⟨"tl", 5, LogType.thought, "ok"⟩] }

/-- Witness for C5: on the concrete completing turn the resulting worker is
Completed, and that matches token detection on the file-stripped text. -/
theorem c5_witness :
    c5WorkerAfter.status = AgentStatus.COMPLETED ↔
      containsSub TOKEN (cleanAfterFiles "ok TASK_COMPLETE".toList) = true :=
  (c5_completion_detection c5State c5Worker "ok TASK_COMPLETE" c5Meta).1
    c5WorkerAfter (by decide) rfl

/-! ### Recovery Manager model

The repository ships no Recovery Manager: the AgentStatus enum of
src/types.ts has no recovery-waiting member, WorkerAgent has no
recoveryAttempts or lastErrorMessage field, and useAgentSystem.ts has no
recovery loop — only the UI (AgentCard.tsx) refers to a recovery status
missing from the enum. The definitions below therefore model that missing
part from the spec alone (sections 3, 4.1 and 4.6). -/

/-- Modelled from the spec: the worker state machine of section 4.1,
including the AwaitingRecovery state absent from the code. -/
inductive RStatus where
  | Idle
  | Working
  | Thinking
  | Completed
  | AwaitingRecovery
  | Error
  | Killed
deriving DecidableEq, Repr

/-- Modelled from the spec: the worker record of section 3, including the
recoveryAttempts and lastErrorMessage fields absent from the code. -/
structure RWorker where
  name : String
  role : String
  status : RStatus
  recoveryAttempts : Nat
  currentTask : String
  lastErrorMessage : Option String
deriving DecidableEq, Repr

/-- Modelled from the spec: the fixed manual-intervention task label of
sections 4.6 and 7. -/
def manualInterventionTask : String := "Manual intervention required"

/-- Modelled from the spec: a freshly spawned worker starts Idle with zero
recovery attempts (section 3). -/
def freshRWorker (name role task : String) : RWorker :=
  { name := name, role := role, status := RStatus.Idle, recoveryAttempts := 0,
    currentTask := task, lastErrorMessage := none }

/-- Modelled from the spec: the sweep of section 4.6 — a worker Awaiting
Recovery with recoveryAttempts at the ceiling is forced to terminal Error
with the manual-intervention label. -/
def sweepOne (w : RWorker) : RWorker :=
  if w.status = RStatus.AwaitingRecovery ∧ 3 ≤ w.recoveryAttempts
  then { w with status := RStatus.Error, currentTask := manualInterventionTask }
  else w

/-- Modelled from the spec: the exhausted-worker sweep over the fleet. -/
def sweepExhausted (ws : List RWorker) : List RWorker := ws.map sweepOne

/-- Modelled from the spec: the Recovery Manager selects at most one worker
in AwaitingRecovery whose recoveryAttempts are below the ceiling of 3. -/
def findRecoveryCandidate (ws : List RWorker) : Option RWorker :=
  ws.find? (fun w => w.status == RStatus.AwaitingRecovery
    && decide (w.recoveryAttempts < 3))

/-- Modelled from the spec: upsert-by-name application of one remediation
task spec — an existing worker of that name is returned to Idle with the new
task, otherwise a fresh worker is appended. -/
def applySpec (ws : List RWorker) (s : TaskSpec) : List RWorker :=
  if ws.any (fun w => w.name == s.name)
  then ws.map (fun w => if w.name = s.name
    then { w with status := RStatus.Idle, currentTask := s.task } else w)
  else ws ++ [freshRWorker s.name s.role s.task]

/-- Modelled from the spec: the recoveryAttempts counter of the troubled worker
is incremented when a remediation plan is applied (section 4.1). -/
def bumpAttempts (tname : String) (ws : List RWorker) : List RWorker :=
  ws.map (fun w => if w.name = tname
    then { w with recoveryAttempts := w.recoveryAttempts + 1 } else w)

/-- Modelled from the spec: a failed remediation call forces the troubled
worker to terminal Error (section 4.6). -/
def markErrorByName (tname : String) (ws : List RWorker) : List RWorker :=
  ws.map (fun w => if w.name = tname then { w with status := RStatus.Error } else w)

/-- Modelled from the spec: one remediation cycle of the Recovery Manager —
pick at most one eligible worker; on planner failure force it to Error; on
planner success increment its attempts and apply the returned task specs by
name. -/
def recoveryCycle (planner : Option (List TaskSpec)) (ws : List RWorker) :
    List RWorker :=
  match findRecoveryCandidate ws with
  | none => ws
  | some tw =>
    match planner with
    | none => markErrorByName tw.name ws
    | some specs => specs.foldl applySpec (bumpAttempts tw.name ws)

/-- Modelled from the spec: one periodic check of the Recovery Manager —
sweep the exhausted workers to Error, then run the remediation cycle. -/
def recoveryTick (planner : Option (List TaskSpec)) (ws : List RWorker) :
    List RWorker :=
  recoveryCycle planner (sweepExhausted ws)

/-! ### Lemmas about the Recovery Manager model -/

theorem sweepExhausted_names (ws : List RWorker) :
    (sweepExhausted ws).map RWorker.name = ws.map RWorker.name := by
  unfold sweepExhausted
  rw [List.map_map]
  congr 1
  funext w
  simp only [Function.comp_apply, sweepOne]
  split <;> rfl

theorem attempts_le_sweepExhausted {ws : List RWorker}
    (h : ∀ w ∈ ws, w.recoveryAttempts ≤ 3) :
    ∀ w ∈ sweepExhausted ws, w.recoveryAttempts ≤ 3 := by
  intro w hw
  rcases List.mem_map.1 hw with ⟨v, hv, rfl⟩
  unfold sweepOne
  split
  · exact h v hv
  · exact h v hv

theorem attempts_le_markErrorByName {ws : List RWorker} {tname : String}
    (h : ∀ w ∈ ws, w.recoveryAttempts ≤ 3) :
    ∀ w ∈ markErrorByName tname ws, w.recoveryAttempts ≤ 3 := by
  intro w hw
  rcases List.mem_map.1 hw with ⟨v, hv, rfl⟩
  split
  · exact h v hv
  · exact h v hv

theorem attempts_le_applySpec {ws : List RWorker} {s : TaskSpec}
    (h : ∀ w ∈ ws, w.recoveryAttempts ≤ 3) :
    ∀ w ∈ applySpec ws s, w.recoveryAttempts ≤ 3 := by
  intro w hw
  unfold applySpec at hw
  split at hw
  · rcases List.mem_map.1 hw with ⟨v, hv, rfl⟩
    split
    · exact h v hv
    · exact h v hv
  · rcases List.mem_append.1 hw with hmem | hmem
    · exact h w hmem
    · have : w = freshRWorker s.name s.role s.task := by simpa using hmem
      rw [this]
      exact Nat.zero_le 3
  
theorem attempts_le_foldl_applySpec {ws : List RWorker} {specs : List TaskSpec}
    (h : ∀ w ∈ ws, w.recoveryAttempts ≤ 3) :
    ∀ w ∈ specs.foldl applySpec ws, w.recoveryAttempts ≤ 3 := by
  induction specs generalizing ws with
  | nil => exact h
  | cons s ss ih => exact ih (attempts_le_applySpec h)

theorem findRecoveryCandidate_lt {ws : List RWorker} {tw : RWorker}
    (h : findRecoveryCandidate ws = some tw) :
    tw.recoveryAttempts < 3 ∧ tw.status = RStatus.AwaitingRecovery := by
  have := List.find?_some h
  simp only [Bool.and_eq_true, beq_iff_eq, decide_eq_true_eq] at this
  exact ⟨this.2, this.1⟩

theorem attempts_le_bumpAttempts {ws : List RWorker} {tw : RWorker}
    (hnd : (ws.map RWorker.name).Nodup)
    (htw : findRecoveryCandidate ws = some tw)
    (h : ∀ w ∈ ws, w.recoveryAttempts ≤ 3) :
    ∀ w ∈ bumpAttempts tw.name ws, w.recoveryAttempts ≤ 3 := by
  have htw_mem := List.mem_of_find?_eq_some htw
  have htw_lt := (findRecoveryCandidate_lt htw).1
  intro w hw
  rcases List.mem_map.1 hw with ⟨v, hv, rfl⟩
  by_cases hname : v.name = tw.name
  · have hveq : v = tw := List.inj_on_of_nodup_map hnd hv htw_mem hname
    rw [if_pos hname, hveq]
    dsimp only
    omega
  · rw [if_neg hname]
    exact h v hv

/-- The Error-state version of a worker produced by the exhausted sweep. -/
def errorSweptVersion (w : RWorker) : RWorker :=
  { w with status := RStatus.Error, currentTask := manualInterventionTask }

/-- Claim C3 (on the spec-modelled Recovery Manager): from any fleet whose
workers have at most 3 recovery attempts and unique names, one recovery tick
keeps every worker at most at 3 attempts; a worker in AwaitingRecovery whose
attempts have reached 3 is swept to terminal Error with the fixed
manual-intervention label; the remediation cycle never selects a worker with
3 or more attempts (the sweep runs first, and selection requires strictly
fewer than 3); and every freshly spawned worker starts at 0 attempts. -/
theorem c3_recovery_bound :
    ∀ (planner : Option (List TaskSpec)) (ws : List RWorker),
      (∀ w ∈ ws, w.recoveryAttempts ≤ 3) → (ws.map RWorker.name).Nodup →
      (∀ w ∈ recoveryTick planner ws, w.recoveryAttempts ≤ 3)
      ∧ (∀ w ∈ ws, w.status = RStatus.AwaitingRecovery → 3 ≤ w.recoveryAttempts →
          errorSweptVersion w ∈ sweepExhausted ws)
      ∧ (∀ tw, findRecoveryCandidate (sweepExhausted ws) = some tw →
          tw.recoveryAttempts < 3)
      ∧ (∀ name role task : String, (freshRWorker name role task).recoveryAttempts = 0) := by
  intro planner ws h hnd
  have hsw_le := attempts_le_sweepExhausted h
  have hsw_nd : ((sweepExhausted ws).map RWorker.name).Nodup := by
    rw [sweepExhausted_names]
    exact hnd
  refine ⟨?_, ?_, fun tw htw => (findRecoveryCandidate_lt htw).1, fun _ _ _ => rfl⟩
  · unfold recoveryTick recoveryCycle
    cases hfind : findRecoveryCandidate (sweepExhausted ws) with
    | none => exact hsw_le
    | some tw =>
      cases planner with
      | none => exact attempts_le_markErrorByName hsw_le
      | some specs =>
        exact attempts_le_foldl_applySpec (attempts_le_bumpAttempts hsw_nd hfind hsw_le)
  · intro w hw hst hge
    have hone : sweepOne w = errorSweptVersion w := by
      unfold sweepOne errorSweptVersion
      rw [if_pos ⟨hst, hge⟩]
    have hmem := List.mem_map_of_mem sweepOne hw
    rw [hone] at hmem
    exact hmem

/-- A worker whose recovery attempts have reached the ceiling. -/
def c3Exhausted : RWorker :=
  { name := "A", role := "r", status := RStatus.AwaitingRecovery,
    recoveryAttempts := 3, currentTask := "t", lastErrorMessage := some "boom" }

/-- Witness for C3: the exhausted worker is swept to terminal Error with the
manual-intervention label. -/
theorem c3_witness :
    errorSweptVersion c3Exhausted ∈ sweepExhausted [c3Exhausted] :=
  (c3_recovery_bound none [c3Exhausted] (by decide) (by decide)).2.1 c3Exhausted
    (by decide) (by decide) (by decide)
